import Mathlib

/-!
Verification of the Conductor Linux workspace lifecycle engine.

The Python source is shallowly embedded: Python `dict`s (which preserve
insertion order) become association lists `List (String × α)` with
insertion-order-preserving update, the tmux session list and git call
results become explicit inputs, and the filesystem effects of each
command become explicit state passing on a `World` record.
-/

namespace Cdl

/-- Python `d[k]` (first binding of the key; keys are unique in a dict). -/
def dictLookup (d : List (String × α)) (k : String) : Option α :=
  match d with
  | [] => none
  | (k0, v) :: rest => if k0 = k then some v else dictLookup rest k

/-- Replace the binding of `k` (unique in a Python dict) by `v` in place. -/
def dictUpdate (d : List (String × α)) (k : String) (v : α) :
    List (String × α) :=
  match d with
  | [] => []
  | (k0, v0) :: rest =>
      if k0 = k then (k, v) :: dictUpdate rest k v
      else (k0, v0) :: dictUpdate rest k v

/-- Python `d[k] = v`: update in place when the key is present (keeping its
position), otherwise append at the end. -/
def dictInsert (d : List (String × α)) (k : String) (v : α) :
    List (String × α) :=
  if (dictLookup d k).isSome then dictUpdate d k v
  else d ++ [(k, v)]

/-- Python `del d[k]` (also total on absent keys, where `del` would raise;
all embedded call sites only delete keys known to be present). -/
def dictRemove (d : List (String × α)) (k : String) : List (String × α) :=
  d.filter (fun p => p.1 ≠ k)

/-- Python `k in d`. -/
def dictContains (d : List (String × α)) (k : String) : Bool :=
  (dictLookup d k).isSome

/-- The key list of a dict, in insertion order. -/
def dictKeys (d : List (String × α)) : List String :=
  d.map Prod.fst

/-- Python `s.startswith(p)`. -/
def strStartsWith (s p : String) : Bool :=
  s.toList.take p.toList.length == p.toList

/-- `Path(p).name`: the part of `p` after the last `/`. -/
def pathBasename (p : String) : String :=
  String.mk ((p.toList.reverse.takeWhile (fun ch => ch ≠ '/')).reverse)

/-- `~/.conductor/worktrees` (`WORKTREES_DIR` in `core/paths.py`). -/
def WORKTREES_DIR : String := "~/.conductor/worktrees"

/-- Path join with `/`. -/
def pathJoin (dir name : String) : String := dir ++ "/" ++ name

/-- Python `s.isdigit()` on ASCII strings: nonempty and all characters
are decimal digits. -/
def isAllDigits (s : String) : Bool :=
  !(s.toList.isEmpty) && s.toList.all Char.isDigit

/-- `int(s)` for an all-digits string `s`. -/
def strToNat (s : String) : Nat :=
  s.toList.foldl (fun acc ch => acc * 10 + (ch.toNat - Char.toNat '0')) 0

/-- One entry of `config["repos"]` as written by `cmd_add`. -/
structure RepoRecord where
  path : String
  url : String
  added : String
deriving Repr, DecidableEq

/-- One entry of `config["agents"]` as written by `cmd_spawn`/`cmd_restore`.
`label` is optional: the writers never set it, readers use `.get("label", "")`. -/
structure AgentRecord where
  repo : String
  branch : String
  worktree : String
  task : String
  agent_type : String
  started : String
  label : Option String := none
deriving Repr, DecidableEq

/-- One entry of `config["archives"]` as written by `cmd_archive`. -/
structure ArchiveRecord where
  repo : String
  branch : String
  worktree : String
  task : String
  agent_type : String
  started : String
  notes : String
  archived_at : String
deriving Repr, DecidableEq

/-- One element of the list built by `get_active_agents` in `commands/repo.py`. -/
structure ActiveAgent where
  session : String
  repo : String
  branch : String
  worktree : String
  task : String
  label : String
  started : String
deriving Repr, DecidableEq

/-- `get_active_agents`, with the tmux session list and the loaded
`config["agents"]` dict made explicit inputs. -/
def get_active_agents (sessions : List String)
    (agents : List (String × AgentRecord)) : List ActiveAgent :=
  sessions.filterMap (fun session =>
    if strStartsWith session "conductor-" then
      match dictLookup agents session with
      | some info =>
          some { session := session, repo := info.repo, branch := info.branch,
                 worktree := info.worktree, task := info.task,
                 label := info.label.getD "", started := info.started }
      | none => none
    else none)

/-- Modelled from the spec (§4.3 / testable property 3), for comparison with
`get_active_agents`: the intersection of the config agent key set with the
observed session set, listed in the insertion order of `config.agents`. -/
def activeAgentsSpec (agents : List (String × AgentRecord))
    (sessions : List String) : List String :=
  (dictKeys agents).filter (fun k => decide (k ∈ sessions))

/-- `resolve_session`, with the active view made an explicit input
(the Python function recomputes it via `get_active_agents`).
`none` models the `None`/"Invalid agent number" outcome. -/
def resolve_session (identifier : String) (agents : List ActiveAgent) :
    Option String :=
  if isAllDigits identifier then
    let idx : Int := (strToNat identifier : Int) - 1
    if 0 ≤ idx ∧ idx < (agents.length : Int) then
      (agents.get? idx.toNat).map ActiveAgent.session
    else
      none
  else if strStartsWith identifier "conductor-" then
    some identifier
  else
    some ("conductor-" ++ identifier)

end Cdl

/-- Demo records for concrete evaluations. -/
def Cdl.demoRec (b : String) : Cdl.AgentRecord :=
  { repo := "demo", branch := b, worktree := "wt-" ++ b, task := "",
    agent_type := "claude", started := "" }

/-- A config agents dict whose insertion order is `conductor-z` before
`conductor-a` (the user spawned `z` first), while tmux reports the two
sessions in name order, `conductor-a` before `conductor-z`. -/
def Cdl.c1Agents : List (String × Cdl.AgentRecord) :=
  [("conductor-z", Cdl.demoRec "z"), ("conductor-a", Cdl.demoRec "a")]

/-- A concrete two-element active view. -/
def Cdl.c5View : List Cdl.ActiveAgent :=
  [{ session := "conductor-demo-x-120000", repo := "demo", branch := "x",
     worktree := "", task := "", label := "", started := "" },
   { session := "conductor-demo-y-130000", repo := "demo", branch := "y",
     worktree := "", task := "", label := "", started := "" }]

namespace Cdl

/-- A minimal Python/JSON value: nested dicts and opaque leaves. -/
inductive PyVal where
  | vdict (entries : List (String × PyVal))
  | vleaf (s : String)

/-- `json.loads` outcome on the config file's text. -/
inductive ParseResult where
  | ok (data : List (String × PyVal))
  | decodeError

/-- Outcome of `CONFIG_FILE.exists()` / `CONFIG_FILE.read_text()`. -/
inductive ReadResult where
  | missing
  | readOk (text : String) (parse : ParseResult)
  | osError

/-- An empty Python dict value. -/
def emptyDict : PyVal := .vdict []

/-- `load_config`: `renameOk` says whether `CONFIG_FILE.rename(backup)`
succeeds — the rename is best-effort, its `OSError` is swallowed by the
inner `try/except OSError: pass` (`config.py` lines 37–40).  First
component is the returned top-level dict, second the content moved to
the `.bak` sibling (`none` when no rename happens: the file was not
corrupt, or the rename itself failed). -/
def load_config (r : ReadResult) (renameOk : Bool) :
    List (String × PyVal) × Option String :=
  match r with
  | .missing =>
      ([("repos", emptyDict), ("agents", emptyDict), ("archives", emptyDict)],
       none)
  | .readOk _ (.ok data) =>
      let d1 := if dictContains data "repos" then data
                else dictInsert data "repos" emptyDict
      let d2 := if dictContains d1 "agents" then d1
                else dictInsert d1 "agents" emptyDict
      let d3 := if dictContains d2 "archives" then d2
                else dictInsert d2 "archives" emptyDict
      (d3, none)
  | .readOk text .decodeError =>
      ([("repos", emptyDict), ("agents", emptyDict)],
       if renameOk then some text else none)
  | .osError =>
      ([("repos", emptyDict), ("agents", emptyDict)], none)

/-- Modelled from the spec's words, for comparison with `load_config`:
the claimed "empty default Config" with all three top-level keys. -/
def emptyDefaultSpec : List (String × PyVal) :=
  [("repos", emptyDict), ("agents", emptyDict), ("archives", emptyDict)]

/-- `subprocess.CompletedProcess` as far as the tool reads it. -/
structure GitResult where
  returncode : Int
  stdout : String
  stderr : String
deriving Repr, DecidableEq

/-- The state cross-referenced by the lifecycle commands. -/
structure World where
  sessions : List String
  repos : List (String × RepoRecord)
  agents : List (String × AgentRecord)
  archives : List (String × ArchiveRecord)
  dirs : List String
deriving Repr, DecidableEq

/-- `~/.conductor/repos` (`REPOS_DIR` in `core/paths.py`). -/
def REPOS_DIR : String := "~/.conductor/repos"

/-- `Path(p).parent` (enough for the paths the tool builds). -/
def pathParent (p : String) : String :=
  String.mk (((p.toList.reverse.dropWhile (fun ch => ch ≠ '/')).drop 1).reverse)

/-- The name `resolve_session` returns for a non-numeric token. -/
def resolvedName (t : String) : String :=
  if strStartsWith t "conductor-" then t else "conductor-" ++ t

/-- `cmd_add` with the clone outcome as an oracle: registers a repo under
`REPOS_DIR/name` unless the path already exists or the clone fails. -/
def cmd_add (w : World) (name url timestamp : String) (cloneOk : Bool) :
    World :=
  let repoPath := pathJoin REPOS_DIR name
  if repoPath ∈ w.dirs then w
  else if !cloneOk then w
  else
    { w with dirs := w.dirs ++ [repoPath],
             repos := dictInsert w.repos name
               { path := repoPath, url := url, added := timestamp } }

/-! ## `cmd_spawn` (`commands/agent.py` lines 190–312), direct path

The embedded path is the one where `args.repo` and `args.branch` are both
given (no picker, no `--from-pr`/`--from-branch`).  `timestamp` is
`datetime.now().strftime("%H%M%S")`, `startedAt` the ISO `started` stamp,
`add1`/`add2` the plain and `-B`-forced `git worktree add` results. -/
def cmd_spawn (w : World) (repoName branchName task agentType : String)
    (timestamp startedAt : String) (add1 add2 : GitResult) :
    World × List String :=
  if (dictLookup w.repos repoName).isSome = false then
    (w, ["Repository not found. Use cdl add first."])
  else
    let worktreeName := repoName ++ "-" ++ branchName ++ "-" ++ timestamp
    let worktreePath := pathJoin WORKTREES_DIR worktreeName
    if add1.returncode ≠ 0 ∧ add2.returncode ≠ 0 then
      (w, ["Failed to create worktree: " ++ add2.stderr])
    else
      let sessionName := "conductor-" ++ worktreeName
      ({ w with dirs := w.dirs ++ [worktreePath],
                sessions := w.sessions ++ [sessionName],
                agents := dictInsert w.agents sessionName
                  { repo := repoName, branch := branchName,
                    worktree := worktreePath, task := task,
                    agent_type := agentType, started := startedAt } },
       ["Agent spawned"])

/-- The session key a spawn would persist. -/
def spawnSessionName (repoName branchName timestamp : String) : String :=
  "conductor-" ++ (repoName ++ "-" ++ branchName ++ "-" ++ timestamp)

/-! ## `cmd_kill` (`commands/agent.py` lines 330–354)

`none` models an uncaught `KeyError`: when the record's repo is no longer
registered, `config["repos"][agent_info["repo"]]` raises.  The `Bool` is
`true` when the identifier resolved (the command proceeded past
`resolve_session`). -/
def cmd_kill (w : World) (token : String) (cleanup : Bool) :
    Option (World × Bool) :=
  match resolve_session token (get_active_agents w.sessions w.agents) with
  | none => some (w, false)
  | some session =>
      let sessions2 := w.sessions.filter (fun s => s ≠ session)
      match dictLookup w.agents session with
      | some info =>
          match dictLookup w.repos info.repo with
          | none => none
          | some _ =>
              let dirs2 := if cleanup
                then w.dirs.filter (fun d => d ≠ info.worktree) else w.dirs
              some ({ w with sessions := sessions2,
                             agents := dictRemove w.agents session,
                             dirs := dirs2 }, true)
      | none => some ({ w with sessions := sessions2 }, true)

/-- The per-agent loop of `cmd_killall`: kill each active session, and
with `--cleanup` remove the worktree of each active agent still in the
config.  Returns the final session list, directory list and the list of
worktrees passed to `git worktree remove`; `none` is the uncaught
`KeyError` on a missing repo. -/
def killallLoop (agents : List (String × AgentRecord))
    (repos : List (String × RepoRecord)) (cleanup : Bool) :
    List ActiveAgent → List String → List String → List String →
    Option (List String × List String × List String)
  | [], sessions, dirs, removed => some (sessions, dirs, removed)
  | a :: rest, sessions, dirs, removed =>
      let sessions2 := sessions.filter (fun s => s ≠ a.session)
      match cleanup, dictLookup agents a.session with
      | true, some info =>
          match dictLookup repos info.repo with
          | none => none
          | some _ =>
              killallLoop agents repos cleanup rest sessions2
                (dirs.filter (fun d => d ≠ info.worktree))
                (removed ++ [info.worktree])
      | true, none => killallLoop agents repos cleanup rest sessions2 dirs removed
      | false, _ => killallLoop agents repos cleanup rest sessions2 dirs removed

/-- `cmd_killall`: iterate over the active view, then replace the whole
agents map with `{}` in one save. -/
def cmd_killall (w : World) (cleanup : Bool) :
    Option (World × List String) :=
  match killallLoop w.agents w.repos cleanup
      (get_active_agents w.sessions w.agents) w.sessions w.dirs [] with
  | none => none
  | some (sessions2, dirs2, removed) =>
      some ({ w with sessions := sessions2, dirs := dirs2, agents := [] },
            removed)

/-- `cmd_archive` on an explicit session token; `notesText` is the content
read from the worktree's `.context/notes.md` (or empty), `archivedAt` the
timestamp.  `none` is the uncaught `KeyError` on a missing repo (raised
after the tmux session is already killed). -/
def cmd_archive (w : World) (token : String) (keepWorktree : Bool)
    (notesText archivedAt : String) : Option World :=
  if (get_active_agents w.sessions w.agents).isEmpty then some w
  else
    match resolve_session token (get_active_agents w.sessions w.agents) with
    | none => some w
    | some resolved =>
        if ((get_active_agents w.sessions w.agents).find?
            (fun a => a.session == resolved)).isSome = false then
          some w
        else
          match dictLookup w.agents resolved with
          | none => some w
          | some info =>
              match dictLookup w.repos info.repo with
              | none => none
              | some _ =>
                  let sessions2 := w.sessions.filter (fun s => s ≠ resolved)
                  let dirs2 := if keepWorktree then w.dirs
                    else w.dirs.filter (fun d => d ≠ info.worktree)
                  some { w with
                    sessions := sessions2,
                    dirs := dirs2,
                    archives := dictInsert w.archives resolved
                      { repo := info.repo, branch := info.branch,
                        worktree := info.worktree, task := info.task,
                        agent_type := info.agent_type, started := info.started,
                        notes := notesText, archived_at := archivedAt },
                    agents := dictRemove w.agents resolved }

/-- The tail of `cmd_restore` once a worktree path is settled: warn (only)
if the session already exists, else create it; insert the agent record;
delete the archive entry. -/
def restoreFinish (w : World) (archiveKey : String) (entry : ArchiveRecord)
    (wt : String) (dirs2 : List String) : World :=
  let sessionName := "conductor-" ++ pathBasename wt
  let sessions2 := if sessionName ∈ w.sessions then w.sessions
                   else w.sessions ++ [sessionName]
  { w with
    sessions := sessions2,
    dirs := dirs2,
    agents := dictInsert w.agents sessionName
      { repo := entry.repo, branch := entry.branch, worktree := wt,
        task := entry.task, agent_type := entry.agent_type,
        started := entry.started },
    archives := dictRemove w.archives archiveKey }

/-- The worktree path a recreating restore uses: the archived path when
its parent directory still exists, else the shared worktrees directory
plus the archived basename. -/
def restoreWtPath (dirs : List String) (wt0 : String) : String :=
  if pathParent wt0 ∈ dirs then wt0
  else pathJoin WORKTREES_DIR (pathBasename wt0)

/-- `cmd_restore` on an explicit archive name; `add1`/`add2` are the plain
and forced `git worktree add` results used when the worktree must be
recreated. -/
def cmd_restore (w : World) (name : String) (recreate : Bool)
    (add1 add2 : GitResult) : World :=
  if w.archives.isEmpty then w
  else
    match dictLookup w.archives name with
    | none => w
    | some entry =>
        if (dictLookup w.repos entry.repo).isSome = false then w
        else
          if entry.worktree ∈ w.dirs ∧ ¬recreate then
            restoreFinish w name entry entry.worktree w.dirs
          else
            if add1.returncode = 0 then
              restoreFinish w name entry
                (restoreWtPath w.dirs entry.worktree)
                (w.dirs ++ [restoreWtPath w.dirs entry.worktree])
            else if add2.returncode = 0 then
              restoreFinish w name entry
                (restoreWtPath w.dirs entry.worktree)
                (w.dirs ++ [restoreWtPath w.dirs entry.worktree])
            else w

/-- No key is in both maps. -/
def mapsDisjoint (agents : List (String × AgentRecord))
    (archives : List (String × ArchiveRecord)) : Bool :=
  agents.all (fun p => !(dictContains archives p.1))

/-- No session key is in both `agents` and `archives`. -/
def configDisjoint (w : World) : Bool :=
  mapsDisjoint w.agents w.archives

/-- Worlds reachable through the embedded commands, starting from an empty
config, under arbitrary external tmux/filesystem interference (`env`) and
arbitrary oracle inputs. -/
inductive Reachable : World → Prop
  | init (sessions dirs : List String) :
      Reachable { sessions := sessions, repos := [], agents := [],
                  archives := [], dirs := dirs }
  | env (w : World) (sessions dirs : List String) :
      Reachable w → Reachable { w with sessions := sessions, dirs := dirs }
  | add (w : World) (name url ts : String) (ok : Bool) :
      Reachable w → Reachable (cmd_add w name url ts ok)
  | spawn (w : World) (repoName branchName task agentType ts st : String)
      (a1 a2 : GitResult) :
      Reachable w →
      Reachable (cmd_spawn w repoName branchName task agentType ts st a1 a2).1
  | kill (w w2 : World) (t : String) (c b : Bool) :
      cmd_kill w t c = some (w2, b) → Reachable w → Reachable w2
  | killall (w w2 : World) (c : Bool) (r : List String) :
      cmd_killall w c = some (w2, r) → Reachable w → Reachable w2
  | archive (w w2 : World) (t : String) (k : Bool) (n ts : String) :
      cmd_archive w t k n ts = some w2 → Reachable w → Reachable w2
  | restore (w : World) (name : String) (r : Bool) (a1 a2 : GitResult) :
      Reachable w → Reachable (cmd_restore w name r a1 a2)

/-- Names defined at module level in `commands/workspace.py`. -/
def workspaceDefs : List String :=
  ["_resolve_active_agent", "cmd_archive", "cmd_restore", "cmd_archives",
   "cmd_open"]

/-- Names defined at module level in `commands/repo.py`. -/
def repoDefs : List String := ["cmd_add", "get_active_agents", "cmd_list"]

/-- Command functions defined at module level in `commands/agent.py`. -/
def agentDefs : List String :=
  ["cmd_spawn", "resolve_session", "cmd_kill", "cmd_killall"]

/-- Command functions defined at module level in `commands/monitor.py`. -/
def monitorDefs : List String :=
  ["cmd_status", "cmd_attach", "cmd_logs", "cmd_diff", "cmd_pick"]

/-- Command functions defined at module level in `commands/sync.py`. -/
def syncDefs : List String := ["cmd_merge"]

/-- Command functions defined in `cli.py` itself. -/
def cliDefs : List String := ["cmd_completions", "cmd_pr"]

/-- Python attribute access `module.attr`: `none` raises `AttributeError`. -/
def moduleAttr (defs : List String) (name : String) : Option String :=
  if name ∈ defs then some name else none

/-- The `commands` dict literal of `main`, as (command, module, attribute)
references in source order. -/
def commandTableRefs : List (String × List String × String) :=
  [("add", repoDefs, "cmd_add"),
   ("list", repoDefs, "cmd_list"),
   ("spawn", agentDefs, "cmd_spawn"),
   ("status", monitorDefs, "cmd_status"),
   ("attach", monitorDefs, "cmd_attach"),
   ("diff", monitorDefs, "cmd_diff"),
   ("merge", syncDefs, "cmd_merge"),
   ("logs", monitorDefs, "cmd_logs"),
   ("kill", agentDefs, "cmd_kill"),
   ("killall", agentDefs, "cmd_killall"),
   ("pick", monitorDefs, "cmd_pick"),
   ("completions", cliDefs, "cmd_completions"),
   ("pr", cliDefs, "cmd_pr"),
   ("archives", workspaceDefs, "cmd_archives"),
   ("archive", workspaceDefs, "cmd_archive"),
   ("restore", workspaceDefs, "cmd_restore"),
   ("open", workspaceDefs, "cmd_open"),
   ("add-dir", workspaceDefs, "cmd_add_dir")]

/-- Build the `commands` dict: every attribute reference is evaluated;
a missing one raises `AttributeError` before any dispatch happens. -/
def buildCommandsDict : Except String (List (String × String)) :=
  commandTableRefs.foldr
    (fun entry acc =>
      match acc with
      | .error e => .error e
      | .ok rest =>
          match moduleAttr entry.2.1 entry.2.2 with
          | some a => .ok ((entry.1, a) :: rest)
          | none => .error ("AttributeError: module cdl.commands.workspace has no attribute " ++ entry.2.2))
    (.ok [])

/-- `alias_map` in `main`. -/
def aliasMap : List (String × String) :=
  [("s", "status"), ("a", "attach"), ("l", "logs"), ("k", "kill"),
   ("d", "diff")]

/-- `main` (`cli.py` lines 192–248): dependency check for `spawn`/`add`,
help on no command, alias mapping, eager `commands` dict construction,
dispatch.  `handlers` abstracts the individual command functions
(`none` = the Python function returned `None`, mapped to exit 0);
`.error` is an exception escaping `main`. -/
def mainDispatch (handlers : String → Option Int) (command : Option String)
    (missingDeps : Bool) : Except String Int :=
  if (command = some "spawn" ∨ command = some "add") ∧ missingDeps = true then
    .ok 1
  else
    match command with
    | none => .ok 0
    | some cmd =>
        let canonical := (dictLookup aliasMap cmd).getD cmd
        match buildCommandsDict with
        | .error e => .error e
        | .ok table =>
            if (dictLookup table canonical).isSome then
              .ok ((handlers canonical).getD 0)
            else .ok 1

end Cdl

/-- The registered demo repo record used by several witnesses. -/
def Cdl.demoRepo : Cdl.RepoRecord :=
  { path := "~/.conductor/repos/demo", url := "u", added := "t0" }

/-- A world with one registered repo, used by several witnesses. -/
def Cdl.w7 : Cdl.World :=
  { sessions := [], repos := [("demo", Cdl.demoRepo)], agents := [],
    archives := [], dirs := ["~/.conductor/repos/demo"] }

/-- A failing git call result. -/
def Cdl.gitFail : Cdl.GitResult :=
  { returncode := 128, stdout := "", stderr := "fatal: branch is checked out" }

/-- The agent record for the kill witness. -/
def Cdl.rec9 : Cdl.AgentRecord :=
  { repo := "demo", branch := "x",
    worktree := "~/.conductor/worktrees/demo-x-120000", task := "",
    agent_type := "claude", started := "t1" }

/-- A world with one live agent. -/
def Cdl.w9 : Cdl.World :=
  { sessions := ["conductor-demo-x-120000"],
    repos := [("demo", Cdl.demoRepo)],
    agents := [("conductor-demo-x-120000", Cdl.rec9)],
    archives := [],
    dirs := ["~/.conductor/worktrees/demo-x-120000"] }

/-- The world after killing the agent of `w9` with cleanup. -/
def Cdl.w9killed : Cdl.World :=
  { sessions := [], repos := [("demo", Cdl.demoRepo)], agents := [],
    archives := [], dirs := [] }

/-- A world with one dead-session agent record (no tmux session). -/
def Cdl.w10 : Cdl.World :=
  { sessions := [], repos := [("demo", Cdl.demoRepo)],
    agents := [("conductor-demo-x-120000", Cdl.rec9)], archives := [],
    dirs := ["~/.conductor/worktrees/demo-x-120000"] }

/-- The world `cmd_killall --cleanup` leaves behind on `w10`. -/
def Cdl.w10after : Cdl.World :=
  { sessions := [], repos := [("demo", Cdl.demoRepo)], agents := [],
    archives := [], dirs := ["~/.conductor/worktrees/demo-x-120000"] }

/-- A successful git call result. -/
def Cdl.gitOk : Cdl.GitResult := { returncode := 0, stdout := "", stderr := "" }

/-- The empty initial world. -/
def Cdl.c8w0 : Cdl.World :=
  { sessions := [], repos := [], agents := [], archives := [], dirs := [] }

/-- After `cdl add` of the demo repo. -/
def Cdl.c8w1 : Cdl.World := Cdl.cmd_add Cdl.c8w0 "demo" "u" "t0" true

/-- After spawning an agent on `demo`/`x` at timestamp `120000`. -/
def Cdl.c8w2 : Cdl.World :=
  (Cdl.cmd_spawn Cdl.c8w1 "demo" "x" "" "claude" "120000" "t1"
    Cdl.gitOk Cdl.gitOk).1

/-- After archiving that agent (record moved to `archives`). -/
def Cdl.c8w3 : Cdl.World :=
  (Cdl.cmd_archive Cdl.c8w2 "conductor-demo-x-120000" false "" "t2").getD
    Cdl.c8w0

namespace Cdl

/-! ## Lemmas about the reconciler and resolver -/
theorem get_active_agents_sessions_eq (sessions : List String)
    (agents : List (String × AgentRecord)) :
    (get_active_agents sessions agents).map ActiveAgent.session
      = sessions.filter
          (fun s => Cdl.strStartsWith s "conductor-" && dictContains agents s) := by
  induction sessions with
  | nil => rfl
  | cons s rest ih =>
    simp only [get_active_agents, List.filterMap_cons, List.filter_cons] at *
    cases hsw : Cdl.strStartsWith s "conductor-" with
    | false => simpa [hsw] using ih
    | true =>
      cases hlk : dictLookup agents s with
      | none => simpa [hsw, dictContains, hlk] using ih
      | some info => simpa [hsw, dictContains, hlk] using ih

end Cdl

/-- C1, counterexample: `get_active_agents` lists the intersection in the
order of the observed tmux session list, not in the insertion order of the
config agents map as the claim states: with config insertion order
`[conductor-z, conductor-a]` and tmux listing `[conductor-a, conductor-z]`,
the code returns `[conductor-a, conductor-z]` while the claimed order is
`[conductor-z, conductor-a]`. -/
theorem C1_counterexample :
    (Cdl.get_active_agents ["conductor-a", "conductor-z"] Cdl.c1Agents).map
        Cdl.ActiveAgent.session
      ≠ Cdl.activeAgentsSpec Cdl.c1Agents ["conductor-a", "conductor-z"] := by
  decide

/-- C1, amended: for every config agents map with key set A and every
observed terminal-session list B, `get_active_agents` returns exactly the
agents whose session keys carry the `conductor-` prefix and lie in A ∩ B,
listed in the order of the observed session list B (not in A's insertion
order), with ordinals 1..N assigned over that order by the callers'
1-based enumeration of the returned list. -/
theorem C1_active_agents_intersection (sessions : List String)
    (agents : List (String × Cdl.AgentRecord)) :
    (Cdl.get_active_agents sessions agents).map Cdl.ActiveAgent.session
        = sessions.filter
            (fun s => Cdl.strStartsWith s "conductor-" && Cdl.dictContains agents s)
      ∧ ∀ s : String,
          (s ∈ (Cdl.get_active_agents sessions agents).map Cdl.ActiveAgent.session
            ↔ Cdl.strStartsWith s "conductor-" = true ∧ s ∈ sessions
                ∧ Cdl.dictContains agents s = true) := by
  refine ⟨Cdl.get_active_agents_sessions_eq sessions agents, fun s => ?_⟩
  rw [Cdl.get_active_agents_sessions_eq sessions agents]
  simp only [List.mem_filter, Bool.and_eq_true]
  tauto

/-- C5: resolving an all-digits token whose value k is in 1..N against an
active view of size N returns the session key at position k of the view;
the all-digits tokens with value 0 or value exceeding N resolve to `none`
(not found); a non-numeric token resolves, without any existence check
against the view, to itself if it already carries the `conductor-` prefix
and to the token with `conductor-` prepended otherwise. -/
theorem C5_resolve_session (view : List Cdl.ActiveAgent) (t : String) :
    (∀ k : Nat, Cdl.isAllDigits t = true → Cdl.strToNat t = k →
        1 ≤ k → k ≤ view.length →
        ∃ a, view.get? (k - 1) = some a
          ∧ Cdl.resolve_session t view = some a.session)
    ∧ (Cdl.isAllDigits t = true →
        (Cdl.strToNat t = 0 ∨ view.length < Cdl.strToNat t) →
        Cdl.resolve_session t view = none)
    ∧ (Cdl.isAllDigits t = false →
        Cdl.resolve_session t view
          = some (if Cdl.strStartsWith t "conductor-" then t
                  else "conductor-" ++ t)) := by
  refine ⟨?_, ?_, ?_⟩
  · intro k hdig hval hk1 hkN
    have hlt : k - 1 < view.length := by omega
    have ha : view.get? (k - 1) = some (view.get ⟨k - 1, hlt⟩) :=
      List.get?_eq_get hlt
    refine ⟨view.get ⟨k - 1, hlt⟩, ha, ?_⟩
    have htn : ((k : Int) - 1).toNat = k - 1 := by omega
    simp only [Cdl.resolve_session, hdig, hval, if_true]
    rw [if_pos (by constructor <;> [omega; (push_cast; omega)])]
    rw [htn, ha]
    rfl
  · intro hdig hrange
    simp only [Cdl.resolve_session, hdig, if_true]
    rw [if_neg]
    rcases hrange with h0 | hN
    · rw [h0]; intro h; omega
    · intro h; obtain ⟨-, hlt⟩ := h
      omega
  · intro hdig
    simp only [Cdl.resolve_session, hdig, Bool.false_eq_true, if_false]
    split <;> rfl

/-- Witness for C5 at a concrete view of size 2 and the tokens
"1", "0", "3" and "foo". -/
theorem C5_resolve_session_witness :
    (∃ a, Cdl.c5View.get? 0 = some a
       ∧ Cdl.resolve_session "1" Cdl.c5View = some a.session)
    ∧ Cdl.resolve_session "0" Cdl.c5View = none
    ∧ Cdl.resolve_session "3" Cdl.c5View = none
    ∧ Cdl.resolve_session "foo" Cdl.c5View = some "conductor-foo" := by
  refine ⟨(C5_resolve_session Cdl.c5View "1").1 1 (by decide) (by decide)
      (by decide) (by decide),
    (C5_resolve_session Cdl.c5View "0").2.1 (by decide) (Or.inl (by decide)),
    (C5_resolve_session Cdl.c5View "3").2.1 (by decide) (Or.inr (by decide)),
    ((C5_resolve_session Cdl.c5View "foo").2.2 (by decide)).trans (by decide)⟩

namespace Cdl

/-! ## Dict lemmas -/
theorem mem_dictKeys_iff_lookup (d : List (String × α)) (k : String) :
    k ∈ dictKeys d ↔ (dictLookup d k).isSome := by
  induction d with
  | nil => simp [dictKeys, dictLookup]
  | cons p rest ih =>
    obtain ⟨k0, v0⟩ := p
    by_cases hk : k0 = k
    · subst hk
      simp [dictKeys, dictLookup]
    · simp only [dictKeys, List.map_cons, List.mem_cons, dictLookup, hk,
        if_false] at ih ⊢
      simp [Ne.symm hk, ih]

theorem dictContains_iff_mem_keys (d : List (String × α)) (k : String) :
    dictContains d k = true ↔ k ∈ dictKeys d := by
  rw [mem_dictKeys_iff_lookup]
  simp [dictContains]

theorem dictLookup_dictUpdate_self (d : List (String × α)) (k : String)
    (v : α) : (dictLookup d k).isSome →
    dictLookup (dictUpdate d k v) k = some v := by
  induction d with
  | nil => intro h; simp [dictLookup] at h
  | cons p rest ih =>
    obtain ⟨k0, v0⟩ := p
    intro h
    by_cases hk : k0 = k
    · simp [dictUpdate, hk, dictLookup]
    · simp only [dictLookup, hk, if_false] at h
      simp [dictUpdate, hk, dictLookup, ih h]

theorem dictLookup_dictUpdate_ne (d : List (String × α)) (k k' : String)
    (v : α) (hne : k' ≠ k) :
    dictLookup (dictUpdate d k v) k' = dictLookup d k' := by
  induction d with
  | nil => rfl
  | cons p rest ih =>
    obtain ⟨k0, v0⟩ := p
    by_cases hk : k0 = k
    · subst hk
      simp [dictUpdate, dictLookup, Ne.symm hne, ih]
    · by_cases hk0 : k0 = k'
      · subst hk0
        simp [dictUpdate, hk, dictLookup]
      · simp [dictUpdate, hk, dictLookup, hk0, ih]

theorem dictKeys_dictUpdate (d : List (String × α)) (k : String) (v : α) :
    dictKeys (dictUpdate d k v) = dictKeys d := by
  induction d with
  | nil => rfl
  | cons p rest ih =>
    obtain ⟨k0, v0⟩ := p
    unfold dictKeys at ih ⊢
    by_cases hk : k0 = k <;> simp [dictUpdate, hk, ih]

theorem dictLookup_append_self (d : List (String × α)) (k : String) (v : α) :
    dictLookup d k = none → dictLookup (d ++ [(k, v)]) k = some v := by
  induction d with
  | nil => intro _; simp [dictLookup]
  | cons p rest ih =>
    obtain ⟨k0, v0⟩ := p
    intro hnone
    by_cases hk : k0 = k
    · simp [dictLookup, hk] at hnone
    · simp only [List.cons_append, dictLookup, hk, if_false] at *
      exact ih hnone

theorem dictLookup_append_ne (d : List (String × α)) (k k' : String) (v : α)
    (hne : k' ≠ k) : dictLookup (d ++ [(k, v)]) k' = dictLookup d k' := by
  induction d with
  | nil => simp [dictLookup, Ne.symm hne]
  | cons p rest ih =>
    obtain ⟨k0, v0⟩ := p
    by_cases hk0 : k0 = k' <;> simp [dictLookup, hk0, ih]

theorem lookup_dictInsert_self (d : List (String × α)) (k : String) (v : α) :
    dictLookup (dictInsert d k v) k = some v := by
  rw [dictInsert]
  split
  · exact dictLookup_dictUpdate_self d k v (by assumption)
  · rename_i hns
    exact dictLookup_append_self d k v
      (Option.not_isSome_iff_eq_none.mp (by simpa using hns))

theorem lookup_dictInsert_ne (d : List (String × α)) (k k' : String) (v : α)
    (hne : k' ≠ k) : dictLookup (dictInsert d k v) k' = dictLookup d k' := by
  rw [dictInsert]
  split
  · exact dictLookup_dictUpdate_ne d k k' v hne
  · exact dictLookup_append_ne d k k' v hne

theorem lookup_dictRemove_self (d : List (String × α)) (k : String) :
    dictLookup (dictRemove d k) k = none := by
  induction d with
  | nil => rfl
  | cons p rest ih =>
    obtain ⟨k0, v0⟩ := p
    by_cases hk : k0 = k
    · simpa [dictRemove, List.filter_cons, hk] using ih
    · simpa [dictRemove, List.filter_cons, hk, dictLookup] using ih

theorem lookup_dictRemove_ne (d : List (String × α)) (k k' : String)
    (hne : k' ≠ k) : dictLookup (dictRemove d k) k' = dictLookup d k' := by
  induction d with
  | nil => rfl
  | cons p rest ih =>
    obtain ⟨k0, v0⟩ := p
    by_cases hk : k0 = k
    · subst hk
      simpa [dictRemove, List.filter_cons, dictLookup, Ne.symm hne] using ih
    · by_cases hk0 : k0 = k'
      · subst hk0
        simp [dictRemove, List.filter_cons, hk, dictLookup]
      · simpa [dictRemove, List.filter_cons, dictLookup, hk, hk0] using ih

theorem dictKeys_dictInsert_of_absent (d : List (String × α)) (k : String)
    (v : α) (h : (dictLookup d k).isSome = false) :
    dictKeys (dictInsert d k v) = dictKeys d ++ [k] := by
  simp [dictInsert, h, dictKeys]

theorem mem_dictKeys_dictInsert (d : List (String × α)) (k : String) (v : α) :
    k ∈ dictKeys (dictInsert d k v) := by
  rw [mem_dictKeys_iff_lookup, lookup_dictInsert_self]
  rfl

theorem mem_dictKeys_dictInsert_mono (d : List (String × α)) (k k' : String)
    (v : α) (h : k ∈ dictKeys d) : k ∈ dictKeys (dictInsert d k' v) := by
  rw [dictInsert]
  split
  · rwa [dictKeys_dictUpdate]
  · rw [dictKeys, List.map_append]
    exact List.mem_append_left _ h

theorem mem_setdefault (d : List (String × α)) (k : String) (v : α) :
    k ∈ dictKeys (if dictContains d k then d else dictInsert d k v) := by
  split
  · rename_i h
    exact (dictContains_iff_mem_keys d k).mp h
  · exact mem_dictKeys_dictInsert d k v

theorem mem_setdefault_mono (d : List (String × α)) (k k' : String) (v : α)
    (h : k ∈ dictKeys d) :
    k ∈ dictKeys (if dictContains d k' then d else dictInsert d k' v) := by
  split
  · exact h
  · exact mem_dictKeys_dictInsert_mono d k k' v h

theorem mem_dictKeys_dictRemove (d : List (String × α)) (k k' : String)
    (h : k' ∈ dictKeys (dictRemove d k)) : k' ∈ dictKeys d ∧ k' ≠ k := by
  by_cases hk : k' = k
  · subst hk
    rw [mem_dictKeys_iff_lookup, lookup_dictRemove_self] at h
    simp at h
  · rw [mem_dictKeys_iff_lookup, lookup_dictRemove_ne d k k' hk,
      ← mem_dictKeys_iff_lookup] at h
    exact ⟨h, hk⟩

end Cdl

/-- C3, counterexample: on an unparsable config file, `load_config` does
not return the three-key empty default structure: the `"archives"` key is
absent from the returned dict (the `except` branches return only
`{"repos": {}, "agents": {}}`), whether or not the backup rename
succeeds. -/
theorem C3_counterexample :
    "archives" ∉
        Cdl.dictKeys (Cdl.load_config (.readOk "not-json" .decodeError)
          true).1
      ∧ (Cdl.load_config (.readOk "not-json" .decodeError) true).1
          ≠ Cdl.emptyDefaultSpec
      ∧ (Cdl.load_config (.readOk "not-json" .decodeError) false).1
          ≠ Cdl.emptyDefaultSpec := by
  refine ⟨by decide, ?_, ?_⟩ <;>
    · intro h
      have h2 := congrArg Cdl.dictKeys h
      revert h2
      decide

/-- C3, amended: `load_config` never fails the caller.  On a missing file
it returns the three-key empty default `{repos, agents, archives}`; on an
unparsable file it attempts to rename the corrupt content aside as a
`.bak` artifact — best-effort: an `OSError` from the rename is swallowed
and the backup is then skipped — and, whether or not that rename
succeeds, returns the two-key default `{repos, agents}` (without the
`archives` key); on any other I/O failure it returns the same two-key
default.  On a successfully parsed file all three keys are present in
the result. -/
theorem C3_load_config_never_fails :
    (∀ b : Bool, Cdl.load_config .missing b = (Cdl.emptyDefaultSpec, none))
    ∧ (∀ text : String,
        Cdl.load_config (.readOk text .decodeError) true
          = ([("repos", Cdl.emptyDict), ("agents", Cdl.emptyDict)], some text))
    ∧ (∀ text : String,
        Cdl.load_config (.readOk text .decodeError) false
          = ([("repos", Cdl.emptyDict), ("agents", Cdl.emptyDict)], none))
    ∧ (∀ b : Bool, Cdl.load_config .osError b
        = ([("repos", Cdl.emptyDict), ("agents", Cdl.emptyDict)], none))
    ∧ ∀ (text : String) (data : List (String × Cdl.PyVal)) (b : Bool),
        "repos" ∈
            Cdl.dictKeys (Cdl.load_config (.readOk text (.ok data)) b).1
        ∧ "agents" ∈
            Cdl.dictKeys (Cdl.load_config (.readOk text (.ok data)) b).1
        ∧ "archives" ∈
            Cdl.dictKeys (Cdl.load_config (.readOk text (.ok data)) b).1 := by
  refine ⟨fun _ => rfl, fun _ => rfl, fun _ => rfl, fun _ => rfl,
    fun text data b => ?_⟩
  simp only [Cdl.load_config]
  exact ⟨Cdl.mem_setdefault_mono _ _ _ _
      (Cdl.mem_setdefault_mono _ _ _ _ (Cdl.mem_setdefault _ _ _)),
    Cdl.mem_setdefault_mono _ _ _ _ (Cdl.mem_setdefault _ _ _),
    Cdl.mem_setdefault _ _ _⟩

namespace Cdl

/-! ## Helper lemmas for the command proofs -/
theorem resolve_session_of_name (t : String) (view : List ActiveAgent)
    (h : isAllDigits t = false) :
    resolve_session t view = some (resolvedName t) := by
  simp only [resolve_session, h, Bool.false_eq_true, if_false, resolvedName]
  split <;> rfl

theorem dictLookup_mem (d : List (String × α)) (k : String) (v : α)
    (h : dictLookup d k = some v) : (k, v) ∈ d := by
  induction d with
  | nil => simp [dictLookup] at h
  | cons p rest ih =>
    obtain ⟨k0, v0⟩ := p
    by_cases hk : k0 = k
    · subst hk
      have h2 : v0 = v := by simpa [dictLookup] using h
      subst h2
      exact List.mem_cons_self _ _
    · simp only [dictLookup, hk, if_false] at h
      exact List.mem_cons_of_mem _ (ih h)

theorem mem_get_active_agents (sessions : List String)
    (agents : List (String × AgentRecord)) (a : ActiveAgent)
    (h : a ∈ get_active_agents sessions agents) :
    a.session ∈ sessions
    ∧ ∃ r, dictLookup agents a.session = some r ∧ r.worktree = a.worktree := by
  unfold get_active_agents at h
  rw [List.mem_filterMap] at h
  obtain ⟨s, hs, hmk⟩ := h
  cases hsw : strStartsWith s "conductor-" with
  | false => rw [hsw] at hmk; simp at hmk
  | true =>
    rw [hsw] at hmk
    simp only [if_true] at hmk
    cases hlk : dictLookup agents s with
    | none => rw [hlk] at hmk; simp at hmk
    | some info =>
      rw [hlk] at hmk
      simp only [Option.some.injEq] at hmk
      subst hmk
      exact ⟨hs, info, hlk, rfl⟩

theorem active_mem_of_session (sessions : List String)
    (agents : List (String × AgentRecord)) (k : String) (rec : AgentRecord)
    (hs : k ∈ sessions) (hp : strStartsWith k "conductor-" = true)
    (hk : dictLookup agents k = some rec) :
    { session := k, repo := rec.repo, branch := rec.branch,
      worktree := rec.worktree, task := rec.task,
      label := rec.label.getD "", started := rec.started : ActiveAgent }
      ∈ get_active_agents sessions agents := by
  unfold get_active_agents
  rw [List.mem_filterMap]
  exact ⟨k, hs, by simp [hp, hk]⟩

theorem isAllDigits_false_of_conductor (k : String)
    (h : strStartsWith k "conductor-" = true) : isAllDigits k = false := by
  unfold strStartsWith at h
  rw [beq_iff_eq] at h
  cases hk : k.toList with
  | nil => rw [hk] at h; simp at h
  | cons c cs =>
    rw [hk] at h
    have hc : c = 'c' := by
      have hcons : List.take ("conductor-".toList.length) (c :: cs)
          = c :: List.take ("conductor-".toList.length - 1) cs := rfl
      rw [hcons] at h
      have := congrArg (fun l => l.head?) h
      simpa using this
    subst hc
    unfold isAllDigits
    rw [hk]
    simp

theorem takeWhile_append_stop (p : Char → Bool) (l1 l2 : List Char)
    (h1 : ∀ x ∈ l1, p x = true) (x : Char) (hx : p x = false) :
    (l1 ++ x :: l2).takeWhile p = l1 := by
  induction l1 with
  | nil => simp [List.takeWhile, hx]
  | cons a as ih =>
    have ha : p a = true := h1 a (List.mem_cons_self a as)
    simp only [List.cons_append, List.takeWhile_cons, ha, if_true]
    rw [ih (fun y hy => h1 y (List.mem_cons_of_mem a hy))]

theorem pathBasename_no_slash (p : String) :
    ∀ ch ∈ (pathBasename p).toList, decide (ch ≠ '/') = true := by
  intro ch hch
  have h2 : ch ∈ List.takeWhile (fun c => decide (c ≠ '/'))
      p.toList.reverse := by
    have he : (pathBasename p).toList
        = (List.takeWhile (fun c => decide (c ≠ '/'))
            p.toList.reverse).reverse := rfl
    rw [he, List.mem_reverse] at hch
    exact hch
  exact List.mem_takeWhile_imp (p := fun c => decide (c ≠ '/')) h2

theorem toList_append (a b : String) : (a ++ b).toList = a.toList ++ b.toList := by
  rfl

theorem pathBasename_pathJoin (d b : String)
    (hb : ∀ ch ∈ b.toList, decide (ch ≠ '/') = true) :
    pathBasename (pathJoin d b) = b := by
  unfold pathJoin pathBasename
  rw [toList_append, toList_append]
  have h1 : (d.toList ++ "/".toList ++ b.toList).reverse
      = b.toList.reverse ++ '/' :: d.toList.reverse := by
    simp [List.reverse_append]
  rw [h1, takeWhile_append_stop _ _ _ ?_ '/' (by decide)]
  · rw [List.reverse_reverse]
    rfl
  · intro x hx
    exact hb x (List.mem_reverse.mp hx)

theorem pathBasename_restore_choice (wt0 d : String) :
    pathBasename (pathJoin d (pathBasename wt0)) = pathBasename wt0 :=
  pathBasename_pathJoin d (pathBasename wt0) (pathBasename_no_slash wt0)

theorem pathBasename_restoreWtPath (dirs : List String) (wt0 : String) :
    pathBasename (restoreWtPath dirs wt0) = pathBasename wt0 := by
  unfold restoreWtPath
  split
  · rfl
  · exact pathBasename_restore_choice wt0 WORKTREES_DIR

end Cdl

/-- C2: `main` cannot route any command: the `commands` dict literal at
`cli.py` lines 222–241 eagerly evaluates `workspace.cmd_add_dir`, but
`commands/workspace.py` defines no `cmd_add_dir`, so every invocation
that reaches the dispatch table raises an uncaught `AttributeError` (a
stack trace, not a printed message with exit code 0 or 1).  Only the
paths that return before the table is built behave as claimed: no
command prints help and exits 0, and `spawn`/`add` with missing
dependencies exit 1. -/
theorem C2_main_attribute_error :
    (∀ cmd : String,
        Cdl.mainDispatch (fun _ => none) (some cmd) false
          = .error "AttributeError: module cdl.commands.workspace has no attribute cmd_add_dir")
    ∧ Cdl.mainDispatch (fun _ => none) none false = .ok 0
    ∧ Cdl.mainDispatch (fun _ => none) (some "spawn") true = .ok 1 := by
  refine ⟨fun cmd => ?_, rfl, rfl⟩
  have hbuild : Cdl.buildCommandsDict
      = .error "AttributeError: module cdl.commands.workspace has no attribute cmd_add_dir" :=
    rfl
  unfold Cdl.mainDispatch
  rw [if_neg (by simp)]
  simp only [hbuild]

/-- C7: when both the plain `git worktree add` and the `-B`-forced retry
fail, `cmd_spawn` surfaces the retry's stderr in its printed output and
aborts before any mutation: the returned world (config agents map,
session list, directories) is exactly the input world.  The
repository-not-found path likewise leaves the world unchanged. -/
theorem C7_spawn_failure_no_record (w : Cdl.World)
    (repoName branchName task agentType ts st : String)
    (add1 add2 : Cdl.GitResult) :
    (add1.returncode ≠ 0 → add2.returncode ≠ 0 →
      (Cdl.cmd_spawn w repoName branchName task agentType ts st add1 add2).1 = w
      ∧ ((Cdl.dictLookup w.repos repoName).isSome = true →
          ("Failed to create worktree: " ++ add2.stderr)
            ∈ (Cdl.cmd_spawn w repoName branchName task agentType ts st add1 add2).2))
    ∧ ((Cdl.dictLookup w.repos repoName).isSome = false →
        (Cdl.cmd_spawn w repoName branchName task agentType ts st add1 add2).1 = w) := by
  constructor
  · intro h1 h2
    unfold Cdl.cmd_spawn
    by_cases hrepo : (Cdl.dictLookup w.repos repoName).isSome = false
    · simp [hrepo]
    · rw [if_neg hrepo]
      rw [if_pos ⟨h1, h2⟩]
      exact ⟨rfl, fun _ => List.mem_singleton.mpr rfl⟩
  · intro hrepo
    unfold Cdl.cmd_spawn
    rw [if_pos hrepo]

/-- Witness for C7 at a concrete world and failing git results. -/
theorem C7_spawn_failure_witness :
    (Cdl.cmd_spawn Cdl.w7 "demo" "x" "" "claude" "120000" "t1"
        Cdl.gitFail Cdl.gitFail).1 = Cdl.w7
    ∧ ("Failed to create worktree: fatal: branch is checked out")
        ∈ (Cdl.cmd_spawn Cdl.w7 "demo" "x" "" "claude" "120000" "t1"
            Cdl.gitFail Cdl.gitFail).2 := by
  have h := (C7_spawn_failure_no_record Cdl.w7 "demo" "x" "" "claude" "120000"
      "t1" Cdl.gitFail Cdl.gitFail).1 (by decide) (by decide)
  exact ⟨h.1, h.2 (by decide)⟩

namespace Cdl

theorem filter_ne_idem (l : List String) (s : String) :
    (l.filter (fun x => x ≠ s)).filter (fun x => x ≠ s)
      = l.filter (fun x => x ≠ s) :=
  List.filter_eq_self.mpr
    (fun _ ha => List.of_mem_filter (p := fun y => decide (y ≠ s)) ha)

end Cdl

/-- C9: kill is idempotent for name identifiers.  Killing a session name
that is neither an observed session nor a config agents key succeeds
without error and changes nothing; and whenever a kill of a name token
returns a world, running the same kill again on that world returns the
same world and the same outcome (the tmux `kill-session` exit code is
ignored, the record and worktree are only removed once). -/
theorem C9_kill_idempotent :
    (∀ (w : Cdl.World) (t : String) (c : Bool),
        Cdl.isAllDigits t = false →
        Cdl.resolvedName t ∉ w.sessions →
        Cdl.dictLookup w.agents (Cdl.resolvedName t) = none →
        Cdl.cmd_kill w t c = some (w, true))
    ∧ (∀ (w w1 : Cdl.World) (t : String) (c b : Bool),
        Cdl.isAllDigits t = false →
        Cdl.cmd_kill w t c = some (w1, b) →
        Cdl.cmd_kill w1 t c = some (w1, b)) := by
  constructor
  · intro w t c hd hns hna
    unfold Cdl.cmd_kill
    rw [Cdl.resolve_session_of_name t _ hd]
    simp only [hna]
    have hf : w.sessions.filter (fun s => s ≠ Cdl.resolvedName t)
        = w.sessions := by
      rw [List.filter_eq_self]
      intro a ha
      simp only [decide_eq_true_eq]
      exact fun he => hns (he ▸ ha)
    rw [hf]
  · intro w w1 t c b hd hfirst
    unfold Cdl.cmd_kill at hfirst ⊢
    rw [Cdl.resolve_session_of_name t _ hd] at hfirst ⊢
    cases hlk : Cdl.dictLookup w.agents (Cdl.resolvedName t) with
    | some info =>
      simp only [hlk] at hfirst
      cases hrepo : Cdl.dictLookup w.repos info.repo with
      | none => rw [hrepo] at hfirst; exact absurd hfirst (by simp)
      | some r =>
        rw [hrepo] at hfirst
        simp only [Option.some.injEq, Prod.mk.injEq] at hfirst
        obtain ⟨hw1, hb⟩ := hfirst
        subst hw1
        subst hb
        simp only [Cdl.lookup_dictRemove_self, Cdl.filter_ne_idem]
    | none =>
      simp only [hlk] at hfirst
      simp only [Option.some.injEq, Prod.mk.injEq] at hfirst
      obtain ⟨hw1, hb⟩ := hfirst
      subst hw1
      subst hb
      simp only [hlk, Cdl.filter_ne_idem]

/-- Witness for C9: killing a name that exists nowhere is a no-op success,
and repeating a concrete kill returns the killed world unchanged. -/
theorem C9_kill_idempotent_witness :
    Cdl.cmd_kill Cdl.w7 "ghost" true = some (Cdl.w7, true)
    ∧ Cdl.cmd_kill Cdl.w9killed "demo-x-120000" true
        = some (Cdl.w9killed, true) := by
  refine ⟨C9_kill_idempotent.1 Cdl.w7 "ghost" true (by decide) (by decide)
      (by decide), ?_⟩
  exact C9_kill_idempotent.2 Cdl.w9 Cdl.w9killed "demo-x-120000" true true
    (by decide) (by decide)

namespace Cdl

/-! ## Unfolding equations for `killallLoop` -/
theorem killallLoop_cons_false (agents : List (String × AgentRecord))
    (repos : List (String × RepoRecord)) (a : ActiveAgent)
    (rest : List ActiveAgent) (sessions dirs removed : List String) :
    killallLoop agents repos false (a :: rest) sessions dirs removed
      = killallLoop agents repos false rest
          (sessions.filter (fun s => s ≠ a.session)) dirs removed := rfl

theorem killallLoop_cons_none (agents : List (String × AgentRecord))
    (repos : List (String × RepoRecord)) (a : ActiveAgent)
    (rest : List ActiveAgent) (sessions dirs removed : List String)
    (hlk : dictLookup agents a.session = none) :
    killallLoop agents repos true (a :: rest) sessions dirs removed
      = killallLoop agents repos true rest
          (sessions.filter (fun s => s ≠ a.session)) dirs removed := by
  simp only [killallLoop, hlk]

theorem killallLoop_cons_some (agents : List (String × AgentRecord))
    (repos : List (String × RepoRecord)) (a : ActiveAgent)
    (rest : List ActiveAgent) (sessions dirs removed : List String)
    (info : AgentRecord) (r : RepoRecord)
    (hlk : dictLookup agents a.session = some info)
    (hrepo : dictLookup repos info.repo = some r) :
    killallLoop agents repos true (a :: rest) sessions dirs removed
      = killallLoop agents repos true rest
          (sessions.filter (fun s => s ≠ a.session))
          (dirs.filter (fun d => d ≠ info.worktree))
          (removed ++ [info.worktree]) := by
  simp only [killallLoop, hlk, hrepo]

theorem killallLoop_cons_krepo (agents : List (String × AgentRecord))
    (repos : List (String × RepoRecord)) (a : ActiveAgent)
    (rest : List ActiveAgent) (sessions dirs removed : List String)
    (info : AgentRecord)
    (hlk : dictLookup agents a.session = some info)
    (hrepo : dictLookup repos info.repo = none) :
    killallLoop agents repos true (a :: rest) sessions dirs removed
      = none := by
  simp only [killallLoop, hlk, hrepo]

theorem killallLoop_removed (agents : List (String × AgentRecord))
    (repos : List (String × RepoRecord)) (c : Bool) :
    ∀ (view : List ActiveAgent) (sessions dirs removed : List String)
      (out : List String × List String × List String),
    killallLoop agents repos c view sessions dirs removed = some out →
    ∀ x ∈ out.2.2, x ∈ removed
      ∨ ∃ a ∈ view, ∃ info, dictLookup agents a.session = some info
          ∧ info.worktree = x := by
  intro view
  induction view with
  | nil =>
    intro sessions dirs removed out h x hx
    simp only [killallLoop, Option.some.injEq] at h
    subst h
    exact Or.inl hx
  | cons a rest ih =>
    intro sessions dirs removed out h x hx
    cases c with
    | false =>
      rw [killallLoop_cons_false] at h
      rcases ih _ _ _ _ h x hx with hl | ⟨a2, ha2, info, hinfo, hwt⟩
      · exact Or.inl hl
      · exact Or.inr ⟨a2, List.mem_cons_of_mem a ha2, info, hinfo, hwt⟩
    | true =>
      cases hlk : dictLookup agents a.session with
      | none =>
        rw [killallLoop_cons_none agents repos a rest _ _ _ hlk] at h
        rcases ih _ _ _ _ h x hx with hl | ⟨a2, ha2, info, hinfo, hwt⟩
        · exact Or.inl hl
        · exact Or.inr ⟨a2, List.mem_cons_of_mem a ha2, info, hinfo, hwt⟩
      | some info =>
        cases hrepo : dictLookup repos info.repo with
        | none =>
          rw [killallLoop_cons_krepo agents repos a rest _ _ _ info hlk
            hrepo] at h
          exact absurd h (by simp)
        | some r =>
          rw [killallLoop_cons_some agents repos a rest _ _ _ info r hlk
            hrepo] at h
          rcases ih _ _ _ _ h x hx with hl | ⟨a2, ha2, info2, hinfo2, hwt2⟩
          · rcases List.mem_append.mp hl with hl2 | hl2
            · exact Or.inl hl2
            · refine Or.inr ⟨a, List.mem_cons_self a rest, info, hlk, ?_⟩
              rw [List.mem_singleton] at hl2
              exact hl2.symm
          · exact Or.inr ⟨a2, List.mem_cons_of_mem a ha2, info2, hinfo2, hwt2⟩

theorem killallLoop_dirs (agents : List (String × AgentRecord))
    (repos : List (String × RepoRecord)) (c : Bool) :
    ∀ (view : List ActiveAgent) (sessions dirs removed : List String)
      (out : List String × List String × List String),
    killallLoop agents repos c view sessions dirs removed = some out →
    ∀ x ∈ dirs,
      (∀ a ∈ view, ∀ info, dictLookup agents a.session = some info →
        info.worktree ≠ x) →
      x ∈ out.2.1 := by
  intro view
  induction view with
  | nil =>
    intro sessions dirs removed out h x hx _
    simp only [killallLoop, Option.some.injEq] at h
    subst h
    exact hx
  | cons a rest ih =>
    intro sessions dirs removed out h x hx hav
    cases c with
    | false =>
      rw [killallLoop_cons_false] at h
      exact ih _ _ _ _ h x hx
        (fun a2 ha2 => hav a2 (List.mem_cons_of_mem a ha2))
    | true =>
      cases hlk : dictLookup agents a.session with
      | none =>
        rw [killallLoop_cons_none agents repos a rest _ _ _ hlk] at h
        exact ih _ _ _ _ h x hx
          (fun a2 ha2 => hav a2 (List.mem_cons_of_mem a ha2))
      | some info =>
        cases hrepo : dictLookup repos info.repo with
        | none =>
          rw [killallLoop_cons_krepo agents repos a rest _ _ _ info hlk
            hrepo] at h
          exact absurd h (by simp)
        | some r =>
          rw [killallLoop_cons_some agents repos a rest _ _ _ info r hlk
            hrepo] at h
          have hne : info.worktree ≠ x :=
            hav a (List.mem_cons_self a rest) info hlk
          have hx2 : x ∈ dirs.filter (fun d => d ≠ info.worktree) := by
            rw [List.mem_filter]
            exact ⟨hx, by simpa using fun he => hne he.symm⟩
          exact ih _ _ _ _ h x hx2
            (fun a2 ha2 => hav a2 (List.mem_cons_of_mem a ha2))

end Cdl

/-- C10: `cmd_killall --cleanup` iterates only over the active view, so a
config agent whose session is dead (absent from the observed set) has its
record deleted by the final `config["agents"] = {}` but its worktree is
never passed to `git worktree remove` and, when no other agent record
shares that worktree path, the directory survives on disk. -/
theorem C10_killall_dead_agent (w : Cdl.World) (k : String)
    (rec : Cdl.AgentRecord) (w2 : Cdl.World) (removed : List String)
    (_hk : Cdl.dictLookup w.agents k = some rec)
    (hdead : k ∉ w.sessions)
    (hsh : ∀ p ∈ w.agents, (p : String × Cdl.AgentRecord).2.worktree
        = rec.worktree → p.1 = k)
    (hcall : Cdl.cmd_killall w true = some (w2, removed)) :
    w2.agents = [] ∧ rec.worktree ∉ removed
    ∧ (rec.worktree ∈ w.dirs → rec.worktree ∈ w2.dirs) := by
  unfold Cdl.cmd_killall at hcall
  cases hloop : Cdl.killallLoop w.agents w.repos true
      (Cdl.get_active_agents w.sessions w.agents) w.sessions w.dirs [] with
  | none => rw [hloop] at hcall; exact absurd hcall (by simp)
  | some out =>
    rw [hloop] at hcall
    obtain ⟨s2, d2, rm⟩ := out
    simp only [Option.some.injEq, Prod.mk.injEq] at hcall
    obtain ⟨hw2, hrm⟩ := hcall
    subst hw2
    subst hrm
    have hnotin : ∀ a ∈ Cdl.get_active_agents w.sessions w.agents,
        ∀ info, Cdl.dictLookup w.agents a.session = some info →
        info.worktree ≠ rec.worktree := by
      intro a ha info hinfo hwt
      have hmem := Cdl.dictLookup_mem _ _ _ hinfo
      have hak : a.session = k := hsh (a.session, info) hmem hwt
      have hsess := (Cdl.mem_get_active_agents _ _ a ha).1
      rw [hak] at hsess
      exact hdead hsess
    refine ⟨rfl, ?_, ?_⟩
    · intro hmemrm
      rcases Cdl.killallLoop_removed w.agents w.repos true _ _ _ _ _ hloop
          rec.worktree hmemrm with hl | ⟨a, ha, info, hinfo, hwt⟩
      · simp at hl
      · exact hnotin a ha info hinfo hwt
    · intro hdir
      exact Cdl.killallLoop_dirs w.agents w.repos true _ _ _ _ _ hloop
        rec.worktree hdir (fun a ha info hinfo => hnotin a ha info hinfo)

/-- Witness for C10 at a concrete dead-session world: the record is wiped,
nothing is passed to worktree removal, and the worktree directory
survives. -/
theorem C10_killall_dead_agent_witness :
    Cdl.w10after.agents = []
    ∧ Cdl.rec9.worktree ∉ ([] : List String)
    ∧ (Cdl.rec9.worktree ∈ Cdl.w10.dirs →
        Cdl.rec9.worktree ∈ Cdl.w10after.dirs) :=
  C10_killall_dead_agent Cdl.w10 "conductor-demo-x-120000" Cdl.rec9
    Cdl.w10after [] (by decide) (by decide) (by decide) (by decide)

namespace Cdl

theorem find?_isSome_of_mem (l : List α) (p : α → Bool) (a : α)
    (ha : a ∈ l) (hp : p a = true) : (l.find? p).isSome = true := by
  induction l with
  | nil => simp at ha
  | cons b rest ih =>
    cases hb : p b with
    | true => simp [List.find?, hb]
    | false =>
      rcases List.mem_cons.mp ha with rfl | ha2
      · rw [hb] at hp
        exact absurd hp (by simp)
      · simpa [List.find?, hb] using ih ha2

theorem dictInsert_isEmpty (d : List (String × α)) (k : String) (v : α) :
    (dictInsert d k v).isEmpty = false := by
  rw [dictInsert]
  split
  · rename_i h
    cases d with
    | nil => simp [dictLookup] at h
    | cons p rest =>
      obtain ⟨k0, v0⟩ := p
      rw [dictUpdate]
      split <;> rfl
  · cases d <;> rfl

theorem restoreFinish_agents (w : World) (k : String) (entry : ArchiveRecord)
    (wt : String) (dirs2 : List String) :
    dictLookup (restoreFinish w k entry wt dirs2).agents
        ("conductor-" ++ pathBasename wt)
      = some { repo := entry.repo, branch := entry.branch, worktree := wt,
               task := entry.task, agent_type := entry.agent_type,
               started := entry.started }
    ∧ dictLookup (restoreFinish w k entry wt dirs2).archives k = none :=
  ⟨lookup_dictInsert_self _ _ _, lookup_dictRemove_self _ _⟩

theorem cmd_restore_moves (w2 : World) (k : String) (arch : ArchiveRecord)
    (recreate : Bool) (add1 add2 : GitResult)
    (hne : w2.archives.isEmpty = false)
    (hlk : dictLookup w2.archives k = some arch)
    (hrepo2 : (dictLookup w2.repos arch.repo).isSome = true)
    (hadd : add1.returncode = 0) :
    (∃ s rec2,
      dictLookup (cmd_restore w2 k recreate add1 add2).agents s = some rec2
      ∧ rec2.repo = arch.repo ∧ rec2.branch = arch.branch)
    ∧ dictLookup (cmd_restore w2 k recreate add1 add2).archives k
        = none := by
  simp only [cmd_restore, hne, hlk, hrepo2, Bool.false_eq_true,
    Bool.true_eq_false, if_false, hadd, eq_self_iff_true, if_true]
  split
  · exact ⟨⟨_, _, (restoreFinish_agents _ _ _ _ _).1, rfl, rfl⟩,
      (restoreFinish_agents _ _ _ _ _).2⟩
  · exact ⟨⟨_, _, (restoreFinish_agents _ _ _ _ _).1, rfl, rfl⟩,
      (restoreFinish_agents _ _ _ _ _).2⟩

end Cdl

/-- C6: archiving a live agent (its session observed, its repo registered)
and then restoring the resulting archive puts an AgentRecord back into the
agents map with the same repo name and branch as before archiving (under
the restore's session name, whose worktree path may differ if recreated),
and deletes the corresponding ArchiveRecord; this holds whether or not a
session with the target name already exists at restore time (an existing
session is only warned about, the record still moves). -/
theorem C6_archive_restore_roundtrip (w : Cdl.World) (k : String)
    (rec : Cdl.AgentRecord) (keep recreate : Bool) (notes ts : String)
    (add1 add2 : Cdl.GitResult) (w3 : Cdl.World)
    (hk : Cdl.dictLookup w.agents k = some rec)
    (hs : k ∈ w.sessions)
    (hpre : Cdl.strStartsWith k "conductor-" = true)
    (hrepo : (Cdl.dictLookup w.repos rec.repo).isSome = true)
    (hadd : add1.returncode = 0)
    (harch : Cdl.cmd_archive w k keep notes ts = some w3) :
    (∃ s rec2, Cdl.dictLookup (Cdl.cmd_restore w3 k recreate add1 add2).agents s
        = some rec2 ∧ rec2.repo = rec.repo ∧ rec2.branch = rec.branch)
    ∧ Cdl.dictLookup (Cdl.cmd_restore w3 k recreate add1 add2).archives k
        = none := by
  have hdig : Cdl.isAllDigits k = false :=
    Cdl.isAllDigits_false_of_conductor k hpre
  have hmem := Cdl.active_mem_of_session w.sessions w.agents k rec hs hpre hk
  have hviewne : (Cdl.get_active_agents w.sessions w.agents).isEmpty
      = false := by
    cases hv : Cdl.get_active_agents w.sessions w.agents with
    | nil => rw [hv] at hmem; simp at hmem
    | cons _ _ => rfl
  have hres : Cdl.resolvedName k = k := by
    rw [Cdl.resolvedName, if_pos hpre]
  have hfind : ((Cdl.get_active_agents w.sessions w.agents).find?
      (fun a => a.session == k)).isSome = true := by
    refine Cdl.find?_isSome_of_mem _ _ _ hmem ?_
    simp
  obtain ⟨rr, hrr⟩ := Option.isSome_iff_exists.mp hrepo
  simp only [Cdl.cmd_archive, hviewne, Bool.false_eq_true, if_false,
    Cdl.resolve_session_of_name k _ hdig, hres, hfind, Bool.true_eq_false,
    hk, hrr, Option.some.injEq] at harch
  subst harch
  exact Cdl.cmd_restore_moves _ k
    { repo := rec.repo, branch := rec.branch, worktree := rec.worktree,
      task := rec.task, agent_type := rec.agent_type, started := rec.started,
      notes := notes, archived_at := ts }
    recreate add1 add2 (Cdl.dictInsert_isEmpty _ _ _)
    (Cdl.lookup_dictInsert_self _ _ _) hrepo hadd

namespace Cdl

/-! ## Disjointness lemmas -/
theorem mapsDisjoint_iff (ag : List (String × AgentRecord))
    (ar : List (String × ArchiveRecord)) :
    mapsDisjoint ag ar = true ↔
      ∀ k, (dictLookup ag k).isSome = true →
        (dictLookup ar k).isSome = true → False := by
  unfold mapsDisjoint
  rw [List.all_eq_true]
  constructor
  · intro h k hka hkr
    have hk : k ∈ dictKeys ag := (mem_dictKeys_iff_lookup _ _).mpr hka
    rw [dictKeys, List.mem_map] at hk
    obtain ⟨p, hp, hpk⟩ := hk
    have h2 := h p hp
    rw [hpk] at h2
    simp [dictContains, hkr] at h2
  · intro h p hp
    have hka : (dictLookup ag p.1).isSome = true := by
      rw [← mem_dictKeys_iff_lookup]
      exact List.mem_map_of_mem Prod.fst hp
    cases hr : (dictLookup ar p.1).isSome with
    | true => exact absurd (h p.1 hka hr) (by simp)
    | false => simp [dictContains, hr]

theorem mapsDisjoint_remove_agents (ag : List (String × AgentRecord))
    (ar : List (String × ArchiveRecord)) (s : String)
    (h : mapsDisjoint ag ar = true) :
    mapsDisjoint (dictRemove ag s) ar = true := by
  rw [mapsDisjoint_iff] at h ⊢
  intro k hka hkr
  by_cases hk : k = s
  · subst hk
    rw [lookup_dictRemove_self] at hka
    simp at hka
  · rw [lookup_dictRemove_ne ag s k hk] at hka
    exact h k hka hkr

theorem mapsDisjoint_archive_move (ag : List (String × AgentRecord))
    (ar : List (String × ArchiveRecord)) (s : String) (v : ArchiveRecord)
    (h : mapsDisjoint ag ar = true) :
    mapsDisjoint (dictRemove ag s) (dictInsert ar s v) = true := by
  rw [mapsDisjoint_iff] at h ⊢
  intro k hka hkr
  by_cases hk : k = s
  · subst hk
    rw [lookup_dictRemove_self] at hka
    simp at hka
  · rw [lookup_dictRemove_ne ag s k hk] at hka
    rw [lookup_dictInsert_ne ar s k v hk] at hkr
    exact h k hka hkr

theorem mapsDisjoint_insert_agents (ag : List (String × AgentRecord))
    (ar : List (String × ArchiveRecord)) (s : String) (v : AgentRecord)
    (h : mapsDisjoint ag ar = true) (hfresh : dictLookup ar s = none) :
    mapsDisjoint (dictInsert ag s v) ar = true := by
  rw [mapsDisjoint_iff] at h ⊢
  intro k hka hkr
  by_cases hk : k = s
  · subst hk
    rw [hfresh] at hkr
    simp at hkr
  · rw [lookup_dictInsert_ne ag s k v hk] at hka
    exact h k hka hkr

theorem mapsDisjoint_restore_move (ag : List (String × AgentRecord))
    (ar : List (String × ArchiveRecord)) (nm s : String) (v : AgentRecord)
    (h : mapsDisjoint ag ar = true)
    (hfresh : dictLookup (dictRemove ar nm) s = none) :
    mapsDisjoint (dictInsert ag s v) (dictRemove ar nm) = true := by
  rw [mapsDisjoint_iff] at h ⊢
  intro k hka hkr
  by_cases hk : k = s
  · subst hk
    rw [hfresh] at hkr
    simp at hkr
  · rw [lookup_dictInsert_ne ag s k v hk] at hka
    by_cases hk2 : k = nm
    · subst hk2
      rw [lookup_dictRemove_self] at hkr
      simp at hkr
    · rw [lookup_dictRemove_ne ar nm k hk2] at hkr
      exact h k hka hkr

theorem configDisjoint_restoreFinish (w : World) (nm : String)
    (entry : ArchiveRecord) (wt : String) (dirs2 : List String)
    (hw : configDisjoint w = true)
    (hfre : dictLookup (dictRemove w.archives nm)
        ("conductor-" ++ pathBasename wt) = none) :
    configDisjoint (restoreFinish w nm entry wt dirs2) = true := by
  unfold configDisjoint restoreFinish at *
  exact mapsDisjoint_restore_move w.agents w.archives nm _ _ hw hfre

end Cdl

/-- Witness for C6 along the concrete spawn → archive → restore chain. -/
theorem C6_archive_restore_roundtrip_witness :
    (∃ s rec2,
      Cdl.dictLookup (Cdl.cmd_restore Cdl.c8w3 "conductor-demo-x-120000"
          false Cdl.gitOk Cdl.gitOk).agents s = some rec2
      ∧ rec2.repo = Cdl.rec9.repo ∧ rec2.branch = Cdl.rec9.branch)
    ∧ Cdl.dictLookup (Cdl.cmd_restore Cdl.c8w3 "conductor-demo-x-120000"
        false Cdl.gitOk Cdl.gitOk).archives "conductor-demo-x-120000"
      = none :=
  C6_archive_restore_roundtrip Cdl.c8w2 "conductor-demo-x-120000" Cdl.rec9
    false false "" "t2" Cdl.gitOk Cdl.gitOk Cdl.c8w3 (by decide) (by decide)
    (by decide) (by decide) (by decide) (by decide)

/-- C8, counterexample: the cross-map uniqueness invariant is not
preserved by `cmd_spawn`.  Along the reachable chain add → spawn →
archive, the archived config has disjoint maps, but a second spawn of the
same repo and branch whose `%H%M%S` timestamp collides with the archived
one (the code never checks `archives`) writes a config in which
`conductor-demo-x-120000` is a key of both `agents` and `archives`. -/
theorem C8_counterexample :
    Cdl.Reachable Cdl.c8w3
    ∧ Cdl.configDisjoint Cdl.c8w3 = true
    ∧ Cdl.configDisjoint
        (Cdl.cmd_spawn Cdl.c8w3 "demo" "x" "" "claude" "120000" "t3"
          Cdl.gitOk Cdl.gitOk).1 = false := by
  refine ⟨?_, by decide, by decide⟩
  have h0 : Cdl.Reachable Cdl.c8w0 := Cdl.Reachable.init [] []
  have h1 : Cdl.Reachable Cdl.c8w1 :=
    Cdl.Reachable.add Cdl.c8w0 "demo" "u" "t0" true h0
  have h2 : Cdl.Reachable Cdl.c8w2 :=
    Cdl.Reachable.spawn Cdl.c8w1 "demo" "x" "" "claude" "120000" "t1"
      Cdl.gitOk Cdl.gitOk h1
  exact Cdl.Reachable.archive Cdl.c8w2 Cdl.c8w3 "conductor-demo-x-120000"
    false "" "t2" (by decide) h2

/-- C8, amended: kill, killall and archive always preserve the
disjointness of the persisted `agents` and `archives` key sets; restore
preserves it provided the session name it reconstructs
(`conductor-` + the basename of the archived worktree) is not a key of
the remaining archives map; spawn preserves it provided the generated
session key (`conductor-repo-branch-HHMMSS`) is not a key of `archives`
— without that freshness condition a timestamp collision with an
archived key makes spawn write a config violating the invariant, as the
counterexample shows. -/
theorem C8_lifecycle_disjointness :
    (∀ (w w2 : Cdl.World) (t : String) (c b : Bool),
        Cdl.cmd_kill w t c = some (w2, b) →
        Cdl.configDisjoint w = true → Cdl.configDisjoint w2 = true)
    ∧ (∀ (w w2 : Cdl.World) (c : Bool) (r : List String),
        Cdl.cmd_killall w c = some (w2, r) →
        Cdl.configDisjoint w2 = true)
    ∧ (∀ (w w2 : Cdl.World) (t : String) (k : Bool) (n ts : String),
        Cdl.cmd_archive w t k n ts = some w2 →
        Cdl.configDisjoint w = true → Cdl.configDisjoint w2 = true)
    ∧ (∀ (w : Cdl.World) (nm : String) (r : Bool) (a1 a2 : Cdl.GitResult),
        Cdl.configDisjoint w = true →
        (∀ entry, Cdl.dictLookup w.archives nm = some entry →
          Cdl.dictLookup (Cdl.dictRemove w.archives nm)
            ("conductor-" ++ Cdl.pathBasename entry.worktree) = none) →
        Cdl.configDisjoint (Cdl.cmd_restore w nm r a1 a2) = true)
    ∧ (∀ (w : Cdl.World) (repoName branchName task agentType ts st : String)
        (a1 a2 : Cdl.GitResult),
        Cdl.configDisjoint w = true →
        Cdl.dictLookup w.archives
          (Cdl.spawnSessionName repoName branchName ts) = none →
        Cdl.configDisjoint
          (Cdl.cmd_spawn w repoName branchName task agentType ts st
            a1 a2).1 = true) := by
  refine ⟨?_, ?_, ?_, ?_, ?_⟩
  · intro w w2 t c b hcall hw
    unfold Cdl.cmd_kill at hcall
    split at hcall
    · simp only [Option.some.injEq, Prod.mk.injEq] at hcall
      obtain ⟨h1, -⟩ := hcall
      subst h1
      exact hw
    · rename_i session hres
      split at hcall
      · split at hcall
        · exact absurd hcall (by simp)
        · simp only [Option.some.injEq, Prod.mk.injEq] at hcall
          obtain ⟨h1, -⟩ := hcall
          subst h1
          exact Cdl.mapsDisjoint_remove_agents w.agents w.archives session hw
      · simp only [Option.some.injEq, Prod.mk.injEq] at hcall
        obtain ⟨h1, -⟩ := hcall
        subst h1
        exact hw
  · intro w w2 c r hcall
    unfold Cdl.cmd_killall at hcall
    split at hcall
    · exact absurd hcall (by simp)
    · simp only [Option.some.injEq, Prod.mk.injEq] at hcall
      obtain ⟨h1, -⟩ := hcall
      subst h1
      rfl
  · intro w w2 t k n ts hcall hw
    unfold Cdl.cmd_archive at hcall
    split at hcall
    · simp only [Option.some.injEq] at hcall
      subst hcall
      exact hw
    · split at hcall
      · simp only [Option.some.injEq] at hcall
        subst hcall
        exact hw
      · rename_i resolved hres
        split at hcall
        · simp only [Option.some.injEq] at hcall
          subst hcall
          exact hw
        · split at hcall
          · simp only [Option.some.injEq] at hcall
            subst hcall
            exact hw
          · split at hcall
            · exact absurd hcall (by simp)
            · simp only [Option.some.injEq] at hcall
              subst hcall
              exact Cdl.mapsDisjoint_archive_move w.agents w.archives
                resolved _ hw
  · intro w nm r a1 a2 hw hfresh
    unfold Cdl.cmd_restore
    split
    · exact hw
    · split
      · exact hw
      · rename_i entry hlk
        split
        · exact hw
        · have hb : Cdl.dictLookup (Cdl.dictRemove w.archives nm)
              ("conductor-" ++ Cdl.pathBasename
                (Cdl.restoreWtPath w.dirs entry.worktree)) = none := by
            rw [Cdl.pathBasename_restoreWtPath]
            exact hfresh entry hlk
          repeat' split
          all_goals
            first
              | exact hw
              | exact Cdl.configDisjoint_restoreFinish w nm entry _ _ hw
                  (hfresh entry hlk)
              | exact Cdl.configDisjoint_restoreFinish w nm entry _ _ hw hb
  · intro w repoName branchName task agentType ts st a1 a2 hw hfresh
    unfold Cdl.cmd_spawn
    split
    · exact hw
    · split
      · exact hw
      · exact Cdl.mapsDisjoint_insert_agents w.agents w.archives _ _ hw hfresh

/-- Witness for C8 at concrete worlds: the archive step of the
counterexample chain preserves disjointness, and a spawn whose fresh key
is absent from the (empty) archives map preserves it too. -/
theorem C8_lifecycle_disjointness_witness :
    Cdl.configDisjoint Cdl.c8w3 = true
    ∧ Cdl.configDisjoint
        (Cdl.cmd_spawn Cdl.w7 "demo" "x" "" "claude" "120000" "t1"
          Cdl.gitOk Cdl.gitOk).1 = true := by
  constructor
  · exact C8_lifecycle_disjointness.2.2.1 Cdl.c8w2 Cdl.c8w3
      "conductor-demo-x-120000" false "" "t2" (by decide) (by decide)
  · exact C8_lifecycle_disjointness.2.2.2.2 Cdl.w7 "demo" "x" "" "claude"
      "120000" "t1" Cdl.gitOk Cdl.gitOk (by decide) (by decide)
